import Mathlib

/-!
Verification of the supervised process-execution core of `simple-cmd`
(`src/impls.rs`, `src/errors.rs`, `src/output_ext.rs`), as a shallow
embedding in Lean 4.  Machine-level effects (OS process table, pipes,
threads) are modelled explicitly: child processes are small state
machines, the monitor thread is a step function folded over a trace of
observed events, streams are byte lists with an optional trailing read
error, and panics / error returns are explicit outcome constructors.
-/

namespace SimpleCmd

/-- Model of `std::io::Error`: identified by its kind/payload only. -/
structure IoError where
  kind : Nat
deriving DecidableEq, Repr

/-- Model of `std::process::ExitStatus` on unix: a process either exited
with a code or was terminated by a signal (`ExitStatusExt`). -/
inductive ExitStatus where
  | exited (code : Int)
  | signaled (sig : Int)
deriving DecidableEq, Repr

/-- `ExitStatus::code()`: `some code` for a normal exit, `none` when the
process was terminated by a signal. -/
def ExitStatus.code : ExitStatus → Option Int
  | .exited c => some c
  | .signaled _ => none

/-- `ExitStatusExt::signal()`: the terminating signal, if any. -/
def ExitStatus.signal : ExitStatus → Option Int
  | .exited _ => none
  | .signaled s => some s

/-- `ExitStatus::success()`: exit code present and zero. -/
def ExitStatus.success (s : ExitStatus) : Bool := s.code = some 0

/-- `std::process::Output`: exit status plus captured stdout/stderr bytes. -/
structure Output where
  status : ExitStatus
  stdout : List UInt8
  stderr : List UInt8
deriving DecidableEq, Repr

/-- `CmdError` from `src/errors.rs`: optional status plus captured bytes. -/
structure CmdError where
  status : Option ExitStatus
  stdout : List UInt8
  stderr : List UInt8
deriving DecidableEq, Repr

/-- `CmdError::from_err` (`src/errors.rs` lines 28-34). -/
def CmdError.from_err (status : ExitStatus) (stdout stderr : List UInt8) : CmdError :=
  { status := some status, stdout := stdout, stderr := stderr }

/-- The crate-level `Error` enum from `src/lib.rs`. -/
inductive Error where
  | commandError (e : CmdError)
  | ioError (e : IoError)
deriving DecidableEq, Repr

/-- `OutputResult::to_result` for `Output` (`src/impls.rs` lines 30-36). -/
def Output.to_result (o : Output) : Except Error (List UInt8) :=
  if o.status.success && o.stderr.isEmpty then
    .ok o.stdout
  else
    .error (.commandError (CmdError.from_err o.status o.stdout o.stderr))

/-- `OutputExt::signal` for `Output` (`src/output_ext.rs` lines 38-40). -/
def Output.signal (o : Output) : Option Int := o.status.signal

/-- `OutputExt::kill` (`src/output_ext.rs` lines 46-48): terminating
signal equals SIGKILL (9). -/
def Output.kill (o : Output) : Bool :=
  match o.signal with
  | some s => (9 : Int) = s
  | none => false

/-- `OutputExt::interrupt` (`src/output_ext.rs` lines 42-44): terminating
signal equals SIGINT (2). -/
def Output.interrupt (o : Output) : Bool :=
  match o.signal with
  | some s => (2 : Int) = s
  | none => false

/-- `OutputExt::success` (`src/output_ext.rs` lines 21-23). -/
def Output.success (o : Output) : Bool := o.status.success

/-- One `read_until(b'\n', buf)` call on a pure byte stream
(`BufRead::read_until` as used by `LinesVec::next`, `impls.rs` 493-500):
returns the chunk read — up to and including the first newline byte, or
the whole remainder when the stream ends without one — and the unread
rest of the stream. -/
def readUntil : List UInt8 → List UInt8 × List UInt8
  | [] => ([], [])
  | b :: rest =>
    if b = 10 then ([b], rest)
    else
      let p := readUntil rest
      (b :: p.1, p.2)

/-- Repeated `read_until` chunking of a byte stream, with fuel (one unit
per chunk; a chunk consumes at least one byte, so `s.length` suffices). -/
def chunksFuel : Nat → List UInt8 → List (List UInt8)
  | 0, _ => []
  | _ + 1, [] => []
  | n + 1, b :: rest =>
    let p := readUntil (b :: rest)
    p.1 :: chunksFuel n p.2

/-- The full sequence of chunks `LinesVec` yields over a byte stream. -/
def chunks (s : List UInt8) : List (List UInt8) := chunksFuel s.length s

/-- A child output stream: the bytes it delivers, then either clean end
of stream or an I/O error on the read that follows them. -/
structure ByteStream where
  data : List UInt8
  errAfter : Option IoError
deriving DecidableEq, Repr

/-- The successive items of the `lines_vec` iterator over a stream
(`impls.rs` 490-501): each successful `read_until` chunk as an `ok`
item, then, when the stream fails instead of reaching end of stream,
a single error item. -/
def lineItems (st : ByteStream) : List (Except IoError (List UInt8)) :=
  (chunks st.data).map .ok ++
    (match st.errAfter with
     | some e => [.error e]
     | none => [])

/-- The `for line in ... { writer.extend(line?) }` loop of
`Cmd::read_to_end`: accumulate the chunks, propagating the first read
error (converted into the crate `Error`) as the early return. -/
def extendLoop : List UInt8 → List (Except IoError (List UInt8)) → Except Error (List UInt8)
  | acc, [] => .ok acc
  | acc, .ok c :: rest => extendLoop (acc ++ c) rest
  | _, .error e :: _ => .error (.ioError e)

/-- `Cmd::read_to_end` (`impls.rs` 314-338): drain the optional stdout
stream, then the optional stderr stream, each into its own buffer; an
absent stream leaves its buffer empty; the first read error aborts the
whole call with that error. -/
def read_to_end (stdout stderr : Option ByteStream) :
    Except Error (List UInt8 × List UInt8) := do
  let so ← match stdout with
    | some st => extendLoop [] (lineItems st)
    | none => pure []
  let se ← match stderr with
    | some st => extendLoop [] (lineItems st)
    | none => pure []
  return (so, se)

/-- The OS-level view of a supervised child process. -/
inductive ChildStatus where
  | running
  | exitedNat (s : ExitStatus)
  | killedSig
deriving DecidableEq, Repr

/-- A successful `Child::try_wait()`: the exit status once the child has
terminated, `none` while it is still running.  A child killed by the
supervisor reports termination by SIGKILL (signal 9), per unix
`kill(2)`/`waitpid(2)` semantics. -/
def ChildStatus.tryWaitVal : ChildStatus → Option ExitStatus
  | .running => none
  | .exitedNat s => some s
  | .killedSig => some (.signaled 9)

/-- `Child::kill()`: SIGKILL a still-running child; against a process
that has already terminated the call fails and changes nothing — the
code discards that failure with `let _ = child.kill()`. -/
def ChildStatus.kill : ChildStatus → ChildStatus
  | .running => .killedSig
  | s => s

/-- Which optional event sources the run was configured with
(`self.signal` and `self.timeout` in `wait_for_output` / `pipe`). -/
structure MonCfg where
  hasCancel : Bool
  hasTimeout : Bool
deriving DecidableEq, Repr

/-- `oper_cancel`: the select index the cancel receiver is registered
under (`sel.recv` registration order: cancel first, then timeout). -/
def MonCfg.operCancel (cfg : MonCfg) : Option Nat :=
  if cfg.hasCancel then some 0 else none

/-- `oper_timeout`: the select index of the timeout tick source. -/
def MonCfg.operTimeout (cfg : MonCfg) : Option Nat :=
  if cfg.hasTimeout then some (if cfg.hasCancel then 1 else 0) else none

/-- The state of the `cmd_wait` monitor thread of `wait_for_output`
(`impls.rs` 234-283) together with its child and the shared status slot:
the select operations still registered, the `killed` flag, the slot and
how often it was written, how many `kill` calls were issued, and whether
the loop has exited. -/
structure MonState where
  child : ChildStatus
  registered : List Nat
  killed : Bool
  status : Option ExitStatus
  statusWrites : Nat
  killCount : Nat
  done : Bool
deriving DecidableEq, Repr

/-- Monitor state right after the thread starts: child running, both
configured sources registered, nothing killed, slot empty. -/
def initMon (cfg : MonCfg) : MonState :=
  { child := .running
    registered := cfg.operCancel.toList ++ cfg.operTimeout.toList
    killed := false
    status := none
    statusWrites := 0
    killCount := 0
    done := false }

/-- One observation the monitor loop makes per iteration, plus the
asynchronous environment action of the child finishing on its own.
`poll` is an iteration where `sel.try_ready()` returns `Err` (no event
ready) and the child is polled; `fire i` is an iteration where
`sel.try_ready()` returns `Ok(i)`. -/
inductive MEvent where
  | exitNat (s : ExitStatus)
  | poll
  | fire (i : Nat)
deriving DecidableEq, Repr

/-- The body of the monitor loop of `wait_for_output` (`impls.rs`
252-282).  On `poll`, a terminated child's status is written to the slot
and the loop breaks (`condvar.notify_one` then `break`).  On `fire i`
with a registered index: the cancel guard and the timeout guard each
require `!killed`; the matching source is removed from the select, the
child is killed and `killed` is set; any other ready event falls into
the catch-all `Ok(i)` arm, which breaks the loop at once.  A `fire` for
an index no longer registered cannot be produced by the select and
leaves the state unchanged. -/
def stepMon (cfg : MonCfg) (st : MonState) (e : MEvent) : MonState :=
  if st.done then st
  else
    match e with
    | .exitNat s =>
      match st.child with
      | .running => { st with child := .exitedNat s }
      | _ => st
    | .poll =>
      match st.child.tryWaitVal with
      | some s =>
        { st with status := some s, statusWrites := st.statusWrites + 1, done := true }
      | none => st
    | .fire i =>
      if i ∈ st.registered then
        if st.killed = false ∧ cfg.operCancel = some i then
          { st with registered := st.registered.erase i,
                    child := st.child.kill, killed := true,
                    killCount := st.killCount + 1 }
        else if st.killed = false ∧ cfg.operTimeout = some i then
          { st with registered := st.registered.erase i,
                    child := st.child.kill, killed := true,
                    killCount := st.killCount + 1 }
        else
          { st with done := true }
      else st

/-- The monitor loop over a whole trace of observations. -/
def runMon (cfg : MonCfg) (st : MonState) : List MEvent → MonState
  | [] => st
  | e :: rest => runMon cfg (stepMon cfg st e) rest

/-- Outcome of one public operation, with panics explicit. -/
inductive ExecOutcome where
  | panicked
  | err (e : Error)
  | ok (o : Output)
deriving DecidableEq, Repr

/-- Result of modelling one `wait_for_output` call: the outcome, whether
the monitor thread and the drain were ever started, and the monitor's
final state when it ran. -/
structure ExecResult where
  outcome : ExecOutcome
  monitorStarted : Bool
  drainerStarted : Bool
  monFinal : Option MonState
deriving DecidableEq, Repr

/-- `Cmd::wait_for_output` (`impls.rs` 215-312).  Inputs of the model:
the OS spawn result, the trace of observations the monitor thread makes,
and the two detached child output streams.  `command.spawn().unwrap()`
panics on a spawn failure, before the monitor thread or the drain is
started.  Otherwise the monitor runs over its trace, the caller drains
both streams via `read_to_end`, joins the monitor thread, re-checks the
condition variable, and assembles the result: a drain error is returned
as is, and otherwise `status.unwrap()` panics when the joined monitor
left the slot empty, else the `Output` is built from the slot and the
two drained buffers. -/
def wait_for_output (spawnRes : Except IoError Unit) (cfg : MonCfg)
    (trace : List MEvent) (stdoutS stderrS : Option ByteStream) : ExecResult :=
  match spawnRes with
  | .error _ =>
    { outcome := .panicked, monitorStarted := false, drainerStarted := false, monFinal := none }
  | .ok _ =>
    let mon := runMon cfg (initMon cfg) trace
    let output := read_to_end stdoutS stderrS
    let outcome : ExecOutcome :=
      match output with
      | .error e => .err e
      | .ok oe =>
        match mon.status with
        | none => .panicked
        | some s => .ok { status := s, stdout := oe.1, stderr := oe.2 }
    { outcome := outcome, monitorStarted := true, drainerStarted := true, monFinal := some mon }

/-- Outcome of `Cmd::run`, whose value on success is the non-blocking
`try_wait` answer rather than an `Output`. -/
inductive RunOutcome where
  | panicked
  | err (e : Error)
  | ok (s : Option ExitStatus)
deriving DecidableEq, Repr

/-- `Cmd::run` (`impls.rs` 200-209): spawn — `unwrap` panics on a spawn
failure — then a single non-blocking `try_wait`, its I/O error mapped
into the crate `Error`; no monitor thread and no drain are involved. -/
def Cmd.run (spawnRes : Except IoError Unit)
    (tryWaitRes : Except IoError (Option ExitStatus)) : RunOutcome :=
  match spawnRes with
  | .error _ => .panicked
  | .ok _ =>
    match tryWaitRes with
    | .error e => .err (.ioError e)
    | .ok s => .ok s




/-- The state of the `cmd_wait` monitor thread of `pipe` (`impls.rs`
371-433): both children, the select bookkeeping, the shared status slot
with its write count, and counters for the kills issued against each
child. -/
structure PipeState where
  child1 : ChildStatus
  child2 : ChildStatus
  registered : List Nat
  killed : Bool
  status : Option ExitStatus
  statusWrites : Nat
  kill1Count : Nat
  kill2Count : Nat
  done : Bool
deriving DecidableEq, Repr

/-- Pipe monitor state right after the thread starts. -/
def initPipe (cfg : MonCfg) : PipeState :=
  { child1 := .running
    child2 := .running
    registered := cfg.operCancel.toList ++ cfg.operTimeout.toList
    killed := false
    status := none
    statusWrites := 0
    kill1Count := 0
    kill2Count := 0
    done := false }

/-- Observations of the `pipe` monitor loop: either child may finish on
its own; `poll` and `fire` are as for the single-child monitor. -/
inductive PEvent where
  | exit1 (s : ExitStatus)
  | exit2 (s : ExitStatus)
  | poll
  | fire (i : Nat)
deriving DecidableEq, Repr

/-- The body of the `pipe` monitor loop (`impls.rs` 389-432).  On
`poll` (`sel.try_ready()` returned `Err`): if downstream child 2 has
terminated, child 1 is killed unconditionally, child 2's status is
written to the slot, and the loop breaks; otherwise, when `killed` is
not yet set and child 1 has terminated, child 2 is killed unless its
second `try_wait` shows it has also terminated, and `killed` is set
either way.  `fire i` kills both children on the first cancel or
timeout event and removes that source; a later valid ready event falls
into the catch-all `Ok(i)` arm and breaks the loop, exactly as in the
single-child monitor. -/
def stepPipe (cfg : MonCfg) (st : PipeState) (e : PEvent) : PipeState :=
  if st.done then st
  else
    match e with
    | .exit1 s =>
      match st.child1 with
      | .running => { st with child1 := .exitedNat s }
      | _ => st
    | .exit2 s =>
      match st.child2 with
      | .running => { st with child2 := .exitedNat s }
      | _ => st
    | .poll =>
      match st.child2.tryWaitVal with
      | some s =>
        { st with child1 := st.child1.kill, kill1Count := st.kill1Count + 1,
                  status := some s, statusWrites := st.statusWrites + 1, done := true }
      | none =>
        if st.killed = false then
          match st.child1.tryWaitVal with
          | some _ =>
            match st.child2.tryWaitVal with
            | some _ => { st with killed := true }
            | none =>
              { st with child2 := st.child2.kill, kill2Count := st.kill2Count + 1,
                        killed := true }
          | none => st
        else st
    | .fire i =>
      if i ∈ st.registered then
        if st.killed = false ∧ cfg.operCancel = some i then
          { st with registered := st.registered.erase i,
                    child1 := st.child1.kill, kill1Count := st.kill1Count + 1,
                    child2 := st.child2.kill, kill2Count := st.kill2Count + 1,
                    killed := true }
        else if st.killed = false ∧ cfg.operTimeout = some i then
          { st with registered := st.registered.erase i,
                    child1 := st.child1.kill, kill1Count := st.kill1Count + 1,
                    child2 := st.child2.kill, kill2Count := st.kill2Count + 1,
                    killed := true }
        else
          { st with done := true }
      else st

/-- The pipe monitor loop over a whole trace of observations. -/
def runPipe (cfg : MonCfg) (st : PipeState) : List PEvent → PipeState
  | [] => st
  | e :: rest => runPipe cfg (stepPipe cfg st e) rest

/-- The `std::io::ErrorKind::InvalidData` error built at `impls.rs` 354
when child 1's stdout handle is unavailable (the model identifies error
kinds by a numeric tag; 22 stands for InvalidData). -/
def invalidDataErr : IoError := { kind := 22 }

/-- Result of modelling one `pipe` call. -/
structure PipeResult where
  outcome : ExecOutcome
  monitorStarted : Bool
  drainerStarted : Bool
  monFinal : Option PipeState
deriving DecidableEq, Repr

/-- `Cmd::pipe` (`impls.rs` 340-459).  Inputs of the model: the two OS
spawn results, whether child 1's stdout handle is available to be wired
into child 2's stdin, the observation trace of the monitor thread, and
downstream child 2's two output streams — the only streams handed to
`read_to_end`, child 1's stdout being consumed entirely by the OS pipe.
Each `spawn().unwrap()` panics on failure before any monitor or drain
is started; an unavailable child-1 stdout returns the `InvalidData` I/O
error (via `ok_or(...)?`) before child 2 is even spawned.  The caller
logic after the monitor thread starts is as in `wait_for_output`. -/
def Cmd.pipe (spawn1 : Except IoError Unit) (stdout1Avail : Bool)
    (spawn2 : Except IoError Unit) (cfg : MonCfg) (trace : List PEvent)
    (stdoutS stderrS : Option ByteStream) : PipeResult :=
  match spawn1 with
  | .error _ =>
    { outcome := .panicked, monitorStarted := false, drainerStarted := false, monFinal := none }
  | .ok _ =>
    if stdout1Avail = false then
      { outcome := .err (.ioError invalidDataErr), monitorStarted := false,
        drainerStarted := false, monFinal := none }
    else
      match spawn2 with
      | .error _ =>
        { outcome := .panicked, monitorStarted := false, drainerStarted := false,
          monFinal := none }
      | .ok _ =>
        let mon := runPipe cfg (initPipe cfg) trace
        let output := read_to_end stdoutS stderrS
        let outcome : ExecOutcome :=
          match output with
          | .error e => .err e
          | .ok oe =>
            match mon.status with
            | none => .panicked
            | some s => .ok { status := s, stdout := oe.1, stderr := oe.2 }
        { outcome := outcome, monitorStarted := true, drainerStarted := true,
          monFinal := some mon }

end SimpleCmd

namespace SimpleCmd

theorem readUntil_append (s : List UInt8) : (readUntil s).1 ++ (readUntil s).2 = s := by
  induction s with
  | nil => rfl
  | cons b rest ih =>
    by_cases hb : b = 10
    · simp [readUntil, hb]
    · simp [readUntil, hb, ih]

theorem readUntil_snd_length (b : UInt8) (rest : List UInt8) :
    (readUntil (b :: rest)).2.length < (b :: rest).length := by
  induction rest generalizing b with
  | nil =>
    by_cases hb : b = 10 <;> simp [readUntil, hb]
  | cons c rest ih =>
    by_cases hb : b = 10
    · simp [readUntil, hb]
    · have := ih c
      simp only [readUntil, if_neg hb]
      simpa using Nat.lt_succ_of_lt this

theorem chunksFuel_join (n : Nat) :
    ∀ s : List UInt8, s.length ≤ n → (chunksFuel n s).flatten = s := by
  induction n with
  | zero =>
    intro s hs
    rw [List.length_eq_zero.mp (Nat.le_zero.mp hs)]
    rfl
  | succ n ih =>
    intro s hs
    match s with
    | [] => rfl
    | b :: rest =>
      have hlt := readUntil_snd_length b rest
      have hr : (readUntil (b :: rest)).2.length ≤ n :=
        Nat.lt_succ_iff.mp (Nat.lt_of_lt_of_le hlt hs)
      simp only [chunksFuel, List.flatten]
      rw [ih _ hr, readUntil_append]

/-- Joining the `lines_vec` chunks restores the stream byte-for-byte:
the delimiter bytes and a trailing unterminated chunk are preserved. -/
theorem chunks_join (s : List UInt8) : (chunks s).flatten = s :=
  chunksFuel_join s.length s (Nat.le_refl _)

theorem extendLoop_ok (cs : List (List UInt8)) :
    ∀ acc, extendLoop acc (cs.map .ok) = .ok (acc ++ cs.flatten) := by
  induction cs with
  | nil => intro acc; simp [extendLoop]
  | cons c cs ih =>
    intro acc
    simp only [List.map_cons, extendLoop, ih, List.flatten, List.append_assoc]

/-- Draining an error-free stream returns exactly its bytes. -/
theorem drain_clean (d : List UInt8) :
    extendLoop [] (lineItems ⟨d, none⟩) = .ok d := by
  rw [lineItems]
  simp only [List.append_nil]
  rw [extendLoop_ok, List.nil_append, chunks_join]

/-- C4: `to_result` returns `ok` with the captured stdout bytes iff the
exit status is success and the captured stderr is empty; otherwise it
returns a `CmdError` carrying exactly the same three fields (status,
stdout, stderr). -/
theorem to_result_spec (o : Output) :
    (o.to_result = .ok o.stdout ↔ (o.status.success = true ∧ o.stderr = [])) ∧
    (¬ (o.status.success = true ∧ o.stderr = []) →
      o.to_result = .error (.commandError
        { status := some o.status, stdout := o.stdout, stderr := o.stderr })) := by
  by_cases h : o.status.success = true ∧ o.stderr = []
  · obtain ⟨hs, he⟩ := h
    refine ⟨⟨fun _ => ⟨hs, he⟩, fun _ => ?_⟩, fun hc => absurd ⟨hs, he⟩ hc⟩
    simp [Output.to_result, hs, he]
  · have hcond : ¬ (o.status.success && o.stderr.isEmpty) = true := by
      simp only [Bool.and_eq_true, List.isEmpty_iff]
      exact h
    refine ⟨⟨fun hr => ?_, fun hh => absurd hh h⟩, fun _ => ?_⟩
    · rw [Output.to_result, if_neg hcond] at hr
      exact Except.noConfusion hr
    · rw [Output.to_result, if_neg hcond]
      rfl

/-- Witness for `to_result_spec` at concrete outputs: a successful,
stderr-free output maps to `ok`, a failing one to the structured error. -/
theorem to_result_spec_witness :
    (Output.mk (.exited 0) [104] []).to_result = .ok [104] ∧
    (Output.mk (.exited 1) [104] [101]).to_result =
      .error (.commandError
        { status := some (.exited 1), stdout := [104], stderr := [101] }) :=
  ⟨(to_result_spec (Output.mk (.exited 0) [104] [])).1.mpr (by decide),
   (to_result_spec (Output.mk (.exited 1) [104] [101])).2 (by decide)⟩



end SimpleCmd

namespace SimpleCmd

theorem stepMon_done (cfg : MonCfg) (st : MonState) (e : MEvent) (h : st.done = true) :
    stepMon cfg st e = st := by
  simp [stepMon, h]

theorem runMon_done (cfg : MonCfg) (st : MonState) (trace : List MEvent)
    (h : st.done = true) : runMon cfg st trace = st := by
  induction trace with
  | nil => rfl
  | cons e rest ih => rw [runMon, stepMon_done cfg st e h, ih]

theorem stepMon_poll_init (cfg : MonCfg) : stepMon cfg (initMon cfg) .poll = initMon cfg := rfl

theorem runMon_replicate_poll (cfg : MonCfg) (n : Nat) (rest : List MEvent) :
    runMon cfg (initMon cfg) (List.replicate n .poll ++ rest) =
      runMon cfg (initMon cfg) rest := by
  induction n with
  | zero => rfl
  | succ n ih =>
    rw [List.replicate_succ, List.cons_append, runMon, stepMon_poll_init, ih]

theorem read_to_end_clean (so se : List UInt8) :
    read_to_end (some ⟨so, none⟩) (some ⟨se, none⟩) = .ok (so, se) := by
  simp only [read_to_end, drain_clean]
  rfl

theorem wait_ok_of_status (cfg : MonCfg) (trace : List MEvent) (so se : List UInt8)
    (s : ExitStatus) (h : (runMon cfg (initMon cfg) trace).status = some s) :
    (wait_for_output (.ok ()) cfg trace (some ⟨so, none⟩) (some ⟨se, none⟩)).outcome =
      .ok ⟨s, so, se⟩ := by
  simp [wait_for_output, read_to_end_clean, h]



/-- C1: evidence at the failing input.  With both a cancel signal and a
timeout configured, the cancel (select index 0) fires first: the child
is killed once and the cancel source removed.  When a timeout tick
(select index 1) then fires before the child's exit has been observed,
both kill guards are disabled by the `killed` flag, so this valid ready
event falls into the catch-all `Ok(i)` arm of the monitor loop, which
breaks at once: the monitor stops polling with the status slot still
empty, instead of treating the second event source as a no-op, and the
caller, after joining the thread and re-checking the condition variable,
panics in `status.unwrap()`.  The same catch-all arm exists in the
`pipe` monitor (`impls.rs` 427-430). -/
theorem second_event_source_breaks_monitor :
    (runMon ⟨true, true⟩ (initMon ⟨true, true⟩) [.fire 0, .fire 1]).killCount = 1 ∧
    (runMon ⟨true, true⟩ (initMon ⟨true, true⟩) [.fire 0, .fire 1]).done = true ∧
    (runMon ⟨true, true⟩ (initMon ⟨true, true⟩) [.fire 0, .fire 1]).status = none ∧
    (wait_for_output (.ok ()) ⟨true, true⟩ [.fire 0, .fire 1]
      (some ⟨[], none⟩) (some ⟨[], none⟩)).outcome = .panicked := by
  refine ⟨rfl, rfl, rfl, ?_⟩
  rfl

/-- C6: a child that exits naturally before any timeout/cancel event
fires yields a Terminal Result carrying its real exit status, with no
kill ever issued; and a kill issued by the monitor against a child that
has already exited is silently ignored — the monitor still records the
natural exit status (never a kill status), terminates its loop, and
produces no error. -/
theorem natural_exit_never_kill_status (cfg : MonCfg) (s : ExitStatus) (n : Nat)
    (so se : List UInt8) :
    (runMon cfg (initMon cfg) (List.replicate n .poll ++ [.exitNat s, .poll])).status
      = some s ∧
    (runMon cfg (initMon cfg) (List.replicate n .poll ++ [.exitNat s, .poll])).killCount
      = 0 ∧
    (runMon cfg (initMon cfg) (List.replicate n .poll ++ [.exitNat s, .poll])).done
      = true ∧
    (wait_for_output (.ok ()) cfg (List.replicate n .poll ++ [.exitNat s, .poll])
      (some ⟨so, none⟩) (some ⟨se, none⟩)).outcome = .ok ⟨s, so, se⟩ ∧
    (runMon ⟨true, true⟩ (initMon ⟨true, true⟩) [.exitNat s, .fire 0, .poll]).status
      = some s ∧
    (runMon ⟨true, true⟩ (initMon ⟨true, true⟩) [.exitNat s, .fire 0, .poll]).child
      = .exitedNat s ∧
    (runMon ⟨true, true⟩ (initMon ⟨true, true⟩) [.exitNat s, .fire 0, .poll]).done
      = true := by
  have h1 : (runMon cfg (initMon cfg)
      (List.replicate n .poll ++ [.exitNat s, .poll])).status = some s := by
    rw [runMon_replicate_poll]; rfl
  refine ⟨h1, ?_, ?_, wait_ok_of_status cfg _ so se s h1, rfl, rfl, rfl⟩
  · rw [runMon_replicate_poll]; rfl
  · rw [runMon_replicate_poll]; rfl


theorem extendLoop_err (cs : List (List UInt8)) (e : IoError) :
    ∀ acc rest, extendLoop acc (cs.map .ok ++ .error e :: rest) = .error (.ioError e) := by
  induction cs with
  | nil => intro acc rest; rfl
  | cons c cs ih =>
    intro acc rest
    simp only [List.map_cons, List.cons_append, extendLoop]
    exact ih (acc ++ c) rest

/-- Draining a stream that fails after its bytes yields that error. -/
theorem drain_err (d : List UInt8) (e : IoError) :
    extendLoop [] (lineItems ⟨d, some e⟩) = .error (.ioError e) := by
  rw [lineItems]
  exact extendLoop_err (chunks d) e [] []

/-- C3 (counterexample): a spawn failure does not surface as a
structured error value — `command.spawn().unwrap()` panics.  At a
concrete failing spawn, `wait_for_output` panics, and its outcome is no
`err` value. -/
theorem spawn_failure_panics_cex :
    (wait_for_output (.error ⟨2⟩) ⟨false, false⟩ [] none none).outcome = .panicked ∧
    ¬ ∃ e : Error, (wait_for_output (.error ⟨2⟩) ⟨false, false⟩ [] none none).outcome
        = .err e := by
  refine ⟨rfl, ?_⟩
  rintro ⟨e, h⟩
  exact ExecOutcome.noConfusion h

/-- C3 (amended): for every command whose program cannot be spawned,
each of `run`, `wait_for_output`/`output` and `pipe` aborts immediately
— no monitor thread and no drainer are started, and no partial result is
produced — but the abort is a panic in `spawn().unwrap()`, not a
structured error return. -/
theorem spawn_failure_aborts (e : IoError) (twr : Except IoError (Option ExitStatus))
    (cfg : MonCfg) (trace : List MEvent) (ptrace : List PEvent)
    (soS seS : Option ByteStream) (sp2 : Except IoError Unit) (av : Bool) :
    Cmd.run (.error e) twr = .panicked ∧
    wait_for_output (.error e) cfg trace soS seS =
      { outcome := .panicked, monitorStarted := false, drainerStarted := false,
        monFinal := none } ∧
    Cmd.pipe (.error e) av sp2 cfg ptrace soS seS =
      { outcome := .panicked, monitorStarted := false, drainerStarted := false,
        monFinal := none } ∧
    Cmd.pipe (.ok ()) true (.error e) cfg ptrace soS seS =
      { outcome := .panicked, monitorStarted := false, drainerStarted := false,
        monFinal := none } := by
  exact ⟨rfl, rfl, rfl, rfl⟩

/-- C9: an I/O failure while reading one of the child's output streams
makes `wait_for_output` (and `pipe`) return that error to the caller —
no Terminal Result is produced — for every monitor trace (hence
regardless of the exit status recorded) and regardless of the bytes
delivered before the failure, on either stream. -/
theorem drain_error_aborts (cfg : MonCfg) (trace : List MEvent) (ptrace : List PEvent)
    (so eb : List UInt8) (e : IoError) (seS : Option ByteStream) :
    (wait_for_output (.ok ()) cfg trace (some ⟨so, some e⟩) seS).outcome
      = .err (.ioError e) ∧
    (wait_for_output (.ok ()) cfg trace (some ⟨so, none⟩) (some ⟨eb, some e⟩)).outcome
      = .err (.ioError e) ∧
    (Cmd.pipe (.ok ()) true (.ok ()) cfg ptrace (some ⟨so, some e⟩) seS).outcome
      = .err (.ioError e) ∧
    (Cmd.pipe (.ok ()) true (.ok ()) cfg ptrace
        (some ⟨so, none⟩) (some ⟨eb, some e⟩)).outcome = .err (.ioError e) := by
  have h1 : read_to_end (some ⟨so, some e⟩) seS = .error (.ioError e) := by
    simp only [read_to_end, drain_err]
    rfl
  have h2 : read_to_end (some ⟨so, none⟩) (some ⟨eb, some e⟩) = .error (.ioError e) := by
    simp only [read_to_end, drain_clean, drain_err]
    rfl
  refine ⟨?_, ?_, ?_, ?_⟩
  · simp [wait_for_output, h1]
  · simp [wait_for_output, h2]
  · simp [Cmd.pipe, h1]
  · simp [Cmd.pipe, h2]


theorem stepMon_writes_inv (cfg : MonCfg) (st : MonState) (e : MEvent)
    (h : (st.statusWrites = 0 ∧ st.status = none) ∨
         (st.statusWrites = 1 ∧ st.done = true ∧ ∃ s, st.status = some s)) :
    ((stepMon cfg st e).statusWrites = 0 ∧ (stepMon cfg st e).status = none) ∨
    ((stepMon cfg st e).statusWrites = 1 ∧ (stepMon cfg st e).done = true ∧
      ∃ s, (stepMon cfg st e).status = some s) := by
  obtain ⟨child, reg, killed, status, writes, kills, done⟩ := st
  cases done with
  | true => exact h
  | false =>
    have h0 : writes = 0 ∧ status = none := by
      rcases h with h0 | ⟨_, hf, _⟩
      · exact h0
      · exact Bool.noConfusion hf
    cases e with
    | exitNat s =>
      cases child with
      | running => exact Or.inl h0
      | exitedNat t => exact Or.inl h0
      | killedSig => exact Or.inl h0
    | poll =>
      cases child with
      | running => exact Or.inl h0
      | exitedNat t =>
        exact Or.inr ⟨by simp [stepMon, ChildStatus.tryWaitVal, h0.1],
          by simp [stepMon, ChildStatus.tryWaitVal],
          t, by simp [stepMon, ChildStatus.tryWaitVal]⟩
      | killedSig =>
        exact Or.inr ⟨by simp [stepMon, ChildStatus.tryWaitVal, h0.1],
          by simp [stepMon, ChildStatus.tryWaitVal],
          .signaled 9, by simp [stepMon, ChildStatus.tryWaitVal]⟩
    | fire i =>
      by_cases hreg : i ∈ reg
      · by_cases hc : killed = false ∧ MonCfg.operCancel cfg = some i
        · exact Or.inl ⟨by simp [stepMon, hreg, hc, h0.1], by simp [stepMon, hreg, hc, h0.2]⟩
        · by_cases htm : killed = false ∧ MonCfg.operTimeout cfg = some i
          · exact Or.inl ⟨by simp [stepMon, hreg, hc, htm, h0.1],
              by simp [stepMon, hreg, hc, htm, h0.2]⟩
          · exact Or.inl ⟨by simp [stepMon, hreg, hc, htm, h0.1],
              by simp [stepMon, hreg, hc, htm, h0.2]⟩
      · exact Or.inl ⟨by simp [stepMon, hreg, h0.1], by simp [stepMon, hreg, h0.2]⟩

theorem runMon_writes_inv (cfg : MonCfg) (trace : List MEvent) :
    ∀ st : MonState,
      ((st.statusWrites = 0 ∧ st.status = none) ∨
       (st.statusWrites = 1 ∧ st.done = true ∧ ∃ s, st.status = some s)) →
      (((runMon cfg st trace).statusWrites = 0 ∧ (runMon cfg st trace).status = none) ∨
       ((runMon cfg st trace).statusWrites = 1 ∧ (runMon cfg st trace).done = true ∧
         ∃ s, (runMon cfg st trace).status = some s)) := by
  induction trace with
  | nil => intro st h; exact h
  | cons e rest ih =>
    intro st h
    exact ih (stepMon cfg st e) (stepMon_writes_inv cfg st e h)

/-- C2: for every supervised run of `wait_for_output` that returns a
Terminal Result, the result's exit status is the one the monitor wrote —
exactly once — into the shared status slot, the captured bytes come only
from the drainer, and the `Output` is constructed only with the status
slot non-empty (never with an absent status). -/
theorem terminal_status_unique (spawnRes : Except IoError Unit) (cfg : MonCfg)
    (trace : List MEvent) (soS seS : Option ByteStream) (out : Output)
    (h : (wait_for_output spawnRes cfg trace soS seS).outcome = .ok out) :
    (wait_for_output spawnRes cfg trace soS seS).monFinal
        = some (runMon cfg (initMon cfg) trace) ∧
    (runMon cfg (initMon cfg) trace).status = some out.status ∧
    (runMon cfg (initMon cfg) trace).statusWrites = 1 ∧
    read_to_end soS seS = .ok (out.stdout, out.stderr) := by
  cases spawnRes with
  | error e =>
    have hne : ExecOutcome.panicked = ExecOutcome.ok out := h
    exact ExecOutcome.noConfusion hne
  | ok u =>
    cases u
    rcases hr : read_to_end soS seS with e | oe
    · have hne : ExecOutcome.err e = ExecOutcome.ok out := by
        rw [← h, wait_for_output]
        simp only [hr]
      exact ExecOutcome.noConfusion hne
    · rcases hs : (runMon cfg (initMon cfg) trace).status with _ | s
      · have hne : ExecOutcome.panicked = ExecOutcome.ok out := by
          rw [← h, wait_for_output]
          simp only [hr, hs]
        exact ExecOutcome.noConfusion hne
      · have hw : (runMon cfg (initMon cfg) trace).statusWrites = 1 := by
          rcases runMon_writes_inv cfg trace (initMon cfg)
              (Or.inl ⟨rfl, rfl⟩) with ⟨_, hnone⟩ | ⟨hw, _, _⟩
          · rw [hnone] at hs
            exact Option.noConfusion hs
          · exact hw
        have hout : ExecOutcome.ok (Output.mk s oe.1 oe.2) = ExecOutcome.ok out := by
          rw [← h, wait_for_output]
          simp only [hr, hs]
        cases hout
        exact ⟨rfl, rfl, hw, rfl⟩

/-- Witness for `terminal_status_unique`: a run whose child exits with
status 0 after delivering one stdout byte. -/
theorem terminal_status_unique_witness :
    (wait_for_output (.ok ()) ⟨false, false⟩ [.exitNat (.exited 0), .poll]
        (some ⟨[104], none⟩) (some ⟨[], none⟩)).monFinal
      = some (runMon ⟨false, false⟩ (initMon ⟨false, false⟩)
        [.exitNat (.exited 0), .poll]) ∧
    (runMon ⟨false, false⟩ (initMon ⟨false, false⟩)
        [.exitNat (.exited 0), .poll]).status = some (.exited 0) ∧
    (runMon ⟨false, false⟩ (initMon ⟨false, false⟩)
        [.exitNat (.exited 0), .poll]).statusWrites = 1 ∧
    read_to_end (some ⟨[104], none⟩) (some ⟨[], none⟩) = .ok ([104], []) :=
  terminal_status_unique (.ok ()) ⟨false, false⟩ [.exitNat (.exited 0), .poll]
    (some ⟨[104], none⟩) (some ⟨[], none⟩) ⟨.exited 0, [104], []⟩ rfl


/-- C7: when the monitor kills the child because a configured timeout or
cancel event fired before the child exited, the Terminal Result's status
is `signaled 9` (killed by SIGKILL): it does not report success, and the
kill is recoverable from the status classification — `OutputExt::kill`
on the result returns `true`. -/
theorem kill_is_reported (cfg : MonCfg) (i n : Nat) (so se : List UInt8)
    (hi : cfg.operCancel = some i ∨ cfg.operTimeout = some i) :
    (runMon cfg (initMon cfg) (List.replicate n .poll ++ [.fire i, .poll])).status
      = some (.signaled 9) ∧
    (runMon cfg (initMon cfg) (List.replicate n .poll ++ [.fire i, .poll])).killCount
      = 1 ∧
    (runMon cfg (initMon cfg) (List.replicate n .poll ++ [.fire i, .poll])).done
      = true ∧
    (wait_for_output (.ok ()) cfg (List.replicate n .poll ++ [.fire i, .poll])
      (some ⟨so, none⟩) (some ⟨se, none⟩)).outcome = .ok ⟨.signaled 9, so, se⟩ ∧
    (Output.mk (.signaled 9) so se).success = false ∧
    (Output.mk (.signaled 9) so se).kill = true := by
  have key : ((runMon cfg (initMon cfg) [.fire i, .poll]).status = some (.signaled 9)) ∧
      ((runMon cfg (initMon cfg) [.fire i, .poll]).killCount = 1) ∧
      ((runMon cfg (initMon cfg) [.fire i, .poll]).done = true) := by
    obtain ⟨hc, ht⟩ := cfg
    cases hc <;> cases ht <;> rcases hi with hi | hi <;>
        simp only [MonCfg.operCancel, MonCfg.operTimeout, if_true, if_false,
          Option.some.injEq, reduceCtorEq] at hi <;>
      first
      | exact absurd hi (by simp)
      | (subst hi; decide)
  have h1 : (runMon cfg (initMon cfg)
      (List.replicate n .poll ++ [.fire i, .poll])).status = some (.signaled 9) := by
    rw [runMon_replicate_poll]; exact key.1
  refine ⟨h1, ?_, ?_, wait_ok_of_status cfg _ so se _ h1, rfl, rfl⟩
  · rw [runMon_replicate_poll]; exact key.2.1
  · rw [runMon_replicate_poll]; exact key.2.2

/-- Witness for `kill_is_reported`: a timeout-only run whose tick fires
at once. -/
theorem kill_is_reported_witness :
    (runMon ⟨false, true⟩ (initMon ⟨false, true⟩)
        (List.replicate 0 .poll ++ [.fire 0, .poll])).status = some (.signaled 9) ∧
    (runMon ⟨false, true⟩ (initMon ⟨false, true⟩)
        (List.replicate 0 .poll ++ [.fire 0, .poll])).killCount = 1 ∧
    (runMon ⟨false, true⟩ (initMon ⟨false, true⟩)
        (List.replicate 0 .poll ++ [.fire 0, .poll])).done = true ∧
    (wait_for_output (.ok ()) ⟨false, true⟩ (List.replicate 0 .poll ++ [.fire 0, .poll])
      (some ⟨[], none⟩) (some ⟨[], none⟩)).outcome = .ok ⟨.signaled 9, [], []⟩ ∧
    (Output.mk (.signaled 9) [] []).success = false ∧
    (Output.mk (.signaled 9) [] []).kill = true :=
  kill_is_reported ⟨false, true⟩ 0 0 [] [] (Or.inr rfl)


theorem stepPipe_writes_inv (cfg : MonCfg) (st : PipeState) (e : PEvent)
    (h : (st.statusWrites = 0 ∧ st.status = none) ∨
         (st.statusWrites = 1 ∧ st.done = true ∧
           ∃ s, st.status = some s ∧ st.child2.tryWaitVal = some s)) :
    ((stepPipe cfg st e).statusWrites = 0 ∧ (stepPipe cfg st e).status = none) ∨
    ((stepPipe cfg st e).statusWrites = 1 ∧ (stepPipe cfg st e).done = true ∧
      ∃ s, (stepPipe cfg st e).status = some s ∧
        (stepPipe cfg st e).child2.tryWaitVal = some s) := by
  obtain ⟨c1, c2, reg, killed, status, writes, k1, k2, done⟩ := st
  cases done with
  | true => exact h
  | false =>
    have h0 : writes = 0 ∧ status = none := by
      rcases h with h0 | ⟨_, hf, _⟩
      · exact h0
      · exact Bool.noConfusion hf
    cases e with
    | exit1 s => cases c1 <;> exact Or.inl h0
    | exit2 s => cases c2 <;> exact Or.inl h0
    | poll =>
      cases c2 with
      | running =>
        cases killed with
        | true => exact Or.inl h0
        | false =>
          cases c1 with
          | running => exact Or.inl h0
          | exitedNat t => exact Or.inl h0
          | killedSig => exact Or.inl h0
      | exitedNat t =>
        exact Or.inr ⟨by simp [stepPipe, ChildStatus.tryWaitVal, h0.1],
          by simp [stepPipe, ChildStatus.tryWaitVal],
          t, by simp [stepPipe, ChildStatus.tryWaitVal],
          by simp [stepPipe, ChildStatus.tryWaitVal]⟩
      | killedSig =>
        exact Or.inr ⟨by simp [stepPipe, ChildStatus.tryWaitVal, h0.1],
          by simp [stepPipe, ChildStatus.tryWaitVal],
          .signaled 9, by simp [stepPipe, ChildStatus.tryWaitVal],
          by simp [stepPipe, ChildStatus.tryWaitVal]⟩
    | fire i =>
      by_cases hreg : i ∈ reg
      · by_cases hc : killed = false ∧ MonCfg.operCancel cfg = some i
        · exact Or.inl ⟨by simp [stepPipe, hreg, hc, h0.1],
            by simp [stepPipe, hreg, hc, h0.2]⟩
        · by_cases htm : killed = false ∧ MonCfg.operTimeout cfg = some i
          · exact Or.inl ⟨by simp [stepPipe, hreg, hc, htm, h0.1],
              by simp [stepPipe, hreg, hc, htm, h0.2]⟩
          · exact Or.inl ⟨by simp [stepPipe, hreg, hc, htm, h0.1],
              by simp [stepPipe, hreg, hc, htm, h0.2]⟩
      · exact Or.inl ⟨by simp [stepPipe, hreg, h0.1], by simp [stepPipe, hreg, h0.2]⟩

theorem runPipe_writes_inv (cfg : MonCfg) (trace : List PEvent) :
    ∀ st : PipeState,
      ((st.statusWrites = 0 ∧ st.status = none) ∨
       (st.statusWrites = 1 ∧ st.done = true ∧
         ∃ s, st.status = some s ∧ st.child2.tryWaitVal = some s)) →
      (((runPipe cfg st trace).statusWrites = 0 ∧ (runPipe cfg st trace).status = none) ∨
       ((runPipe cfg st trace).statusWrites = 1 ∧ (runPipe cfg st trace).done = true ∧
         ∃ s, (runPipe cfg st trace).status = some s ∧
           (runPipe cfg st trace).child2.tryWaitVal = some s)) := by
  induction trace with
  | nil => intro st h; exact h
  | cons e rest ih =>
    intro st h
    exact ih (stepPipe cfg st e) (stepPipe_writes_inv cfg st e h)

/-- C8: a piped run's Terminal Result describes only downstream child 2:
its status is the one the pipe monitor wrote — exactly once — into the
slot, which is child 2's exit status as observed by `try_wait`, and its
captured stdout/stderr are the drain of child 2's handles only (child
1's stdout is wired into child 2's stdin by the model and is not an
input of the drain). -/
theorem pipe_result_from_downstream (sp1 : Except IoError Unit) (av : Bool)
    (sp2 : Except IoError Unit) (cfg : MonCfg) (trace : List PEvent)
    (soS seS : Option ByteStream) (out : Output)
    (h : (Cmd.pipe sp1 av sp2 cfg trace soS seS).outcome = .ok out) :
    (Cmd.pipe sp1 av sp2 cfg trace soS seS).monFinal
        = some (runPipe cfg (initPipe cfg) trace) ∧
    (runPipe cfg (initPipe cfg) trace).status = some out.status ∧
    (runPipe cfg (initPipe cfg) trace).child2.tryWaitVal = some out.status ∧
    (runPipe cfg (initPipe cfg) trace).statusWrites = 1 ∧
    read_to_end soS seS = .ok (out.stdout, out.stderr) := by
  cases sp1 with
  | error e =>
    have hne : ExecOutcome.panicked = ExecOutcome.ok out := h
    exact ExecOutcome.noConfusion hne
  | ok u1 =>
    cases u1
    cases av with
    | false =>
      have hne : ExecOutcome.err (.ioError invalidDataErr) = ExecOutcome.ok out := h
      exact ExecOutcome.noConfusion hne
    | true =>
      cases sp2 with
      | error e =>
        have hne : ExecOutcome.panicked = ExecOutcome.ok out := h
        exact ExecOutcome.noConfusion hne
      | ok u2 =>
        cases u2
        rcases hr : read_to_end soS seS with e | oe
        · have hne : ExecOutcome.err e = ExecOutcome.ok out := by
            rw [← h, Cmd.pipe]
            simp only [hr]
            rfl
          exact ExecOutcome.noConfusion hne
        · rcases hs : (runPipe cfg (initPipe cfg) trace).status with _ | s
          · have hne : ExecOutcome.panicked = ExecOutcome.ok out := by
              rw [← h, Cmd.pipe]
              simp only [hr, hs]
              rfl
            exact ExecOutcome.noConfusion hne
          · have hinv := runPipe_writes_inv cfg trace (initPipe cfg) (Or.inl ⟨rfl, rfl⟩)
            rcases hinv with ⟨_, hnone⟩ | ⟨hw, _, t, hts, htw⟩
            · rw [hnone] at hs
              exact Option.noConfusion hs
            · have hst : t = s := by
                rw [hts] at hs
                exact Option.some.inj hs
              subst hst
              have hout : ExecOutcome.ok (Output.mk t oe.1 oe.2)
                  = ExecOutcome.ok out := by
                rw [← h, Cmd.pipe]
                simp only [hr, hs]
                rfl
              cases hout
              exact ⟨rfl, rfl, htw, hw, rfl⟩

/-- Witness for `pipe_result_from_downstream`: downstream child 2 exits
with status 0 after delivering one stdout byte. -/
theorem pipe_result_from_downstream_witness :
    (Cmd.pipe (.ok ()) true (.ok ()) ⟨false, false⟩ [.exit2 (.exited 0), .poll]
        (some ⟨[104], none⟩) (some ⟨[], none⟩)).monFinal
      = some (runPipe ⟨false, false⟩ (initPipe ⟨false, false⟩)
        [.exit2 (.exited 0), .poll]) ∧
    (runPipe ⟨false, false⟩ (initPipe ⟨false, false⟩)
        [.exit2 (.exited 0), .poll]).status = some (.exited 0) ∧
    (runPipe ⟨false, false⟩ (initPipe ⟨false, false⟩)
        [.exit2 (.exited 0), .poll]).child2.tryWaitVal = some (.exited 0) ∧
    (runPipe ⟨false, false⟩ (initPipe ⟨false, false⟩)
        [.exit2 (.exited 0), .poll]).statusWrites = 1 ∧
    read_to_end (some ⟨[104], none⟩) (some ⟨[], none⟩) = .ok ([104], []) :=
  pipe_result_from_downstream (.ok ()) true (.ok ()) ⟨false, false⟩
    [.exit2 (.exited 0), .poll] (some ⟨[104], none⟩) (some ⟨[], none⟩)
    ⟨.exited 0, [104], []⟩ rfl

/-- C10: whenever the pipe monitor observes on a poll iteration that
downstream child 2 has terminated, it issues a kill against upstream
child 1 unconditionally — in particular with no timeout or cancel event
having fired (`killed` may be `false`) and with child 1 still running,
in which case child 1 dies by SIGKILL — in the same loop arm that
records child 2's exit status in the slot, notifies the caller, and
breaks. -/
theorem pipe_kills_upstream_on_downstream_exit (cfg : MonCfg) (st : PipeState)
    (s : ExitStatus) (hd : st.done = false) (h2 : st.child2.tryWaitVal = some s) :
    stepPipe cfg st .poll =
      { st with child1 := st.child1.kill, kill1Count := st.kill1Count + 1,
                status := some s, statusWrites := st.statusWrites + 1, done := true } ∧
    (st.child1 = .running → (stepPipe cfg st .poll).child1 = .killedSig) := by
  have heq : stepPipe cfg st .poll =
      { st with child1 := st.child1.kill, kill1Count := st.kill1Count + 1,
                status := some s, statusWrites := st.statusWrites + 1, done := true } := by
    rw [stepPipe.eq_def, hd]
    simp only [h2]
    rfl
  refine ⟨heq, fun h1 => ?_⟩
  rw [heq]
  simp [h1, ChildStatus.kill]

/-- Witness for `pipe_kills_upstream_on_downstream_exit`: child 1 still
running, no event fired, child 2 just exited with status 0. -/
theorem pipe_kills_upstream_witness :
    stepPipe ⟨false, false⟩
        ⟨.running, .exitedNat (.exited 0), [], false, none, 0, 0, 0, false⟩ .poll =
      { child1 := .killedSig, child2 := .exitedNat (.exited 0), registered := [],
        killed := false, status := some (.exited 0), statusWrites := 1,
        kill1Count := 1, kill2Count := 0, done := true } ∧
    ((⟨.running, .exitedNat (.exited 0), [], false, none, 0, 0, 0,
        false⟩ : PipeState).child1 = .running →
      (stepPipe ⟨false, false⟩
        ⟨.running, .exitedNat (.exited 0), [], false, none, 0, 0, 0,
          false⟩ .poll).child1 = .killedSig) :=
  pipe_kills_upstream_on_downstream_exit ⟨false, false⟩
    ⟨.running, .exitedNat (.exited 0), [], false, none, 0, 0, 0, false⟩
    (.exited 0) rfl rfl


/-- C5: the drainer returns buffers byte-for-byte equal to the full
contents of the corresponding streams: the internal read-until-newline
chunking preserves all delimiter bytes and a trailing chunk with no
final newline (joining the chunks restores the stream), an absent
stream yields an empty buffer, and — the model being a pure function —
the two returned buffers are its only effect. -/
theorem read_to_end_byte_fidelity (so se : List UInt8) :
    (chunks so).flatten = so ∧
    read_to_end (some ⟨so, none⟩) (some ⟨se, none⟩) = .ok (so, se) ∧
    read_to_end none (some ⟨se, none⟩) = .ok ([], se) ∧
    read_to_end (some ⟨so, none⟩) none = .ok (so, []) ∧
    read_to_end none none = .ok ([], []) := by
  refine ⟨chunks_join so, read_to_end_clean so se, ?_, ?_, rfl⟩
  · simp only [read_to_end, drain_clean]
    rfl
  · simp only [read_to_end, drain_clean]
    rfl

end SimpleCmd
